import Mathlib

/-!
Shallow embedding of the budgeteer-backend deal-ingestion pipeline.

Source files embedded here:
* `run_scrapers.py` — `_normalize_deals` (the Normalizer) and
  `run_all_scrapers` (the Orchestrator).
* `app.py` — the `bulk_add_deals` endpoint (the Upsert Engine), the
  active-deal filter of `get_deals` (line 130) and `get_stats`
  (lines 160–162).

Python dictionaries with a known set of recognized keys are embedded as
structures of `Option`-valued fields (`none` = key absent), with an extra
association list `rest` standing for all unrecognized keys.  Python
truthiness of a string-valued field (`None` and `""` are falsy) is the
`truthy` predicate.  Timestamps are integers; `datetime.fromisoformat`
and the current clock are parameters (`parseDate`, `now`) because both
are external to the repository.
-/

namespace Budgeteer

/-- Python truthiness of an optional string: `None` and `""` are falsy. -/
def truthy : Option String → Bool
  | none => false
  | some s => !s.isEmpty

/-- Python `a or b` on optional strings: keeps `a` when truthy, else `b`. -/
def pyOr (a b : Option String) : Option String :=
  if truthy a then a else b

/-- A candidate record emitted by a scraper adapter: the keys the
Normalizer reads or writes (`store_name`, `store`, `product_name`,
`description`, `title`, `name`), each possibly absent, plus all other
key/value pairs in `rest`. -/
structure Cand where
  store_name : Option String
  store : Option String
  product_name : Option String
  description : Option String
  title : Option String
  nameF : Option String
  rest : List (String × String)
deriving DecidableEq

/-- An entry of the raw list handed to `_normalize_deals`: either a dict
(a `Cand`) or a non-dict value (skipped by the `isinstance` guard). -/
inductive CandVal where
  | dict (c : Cand)
  | nondict
deriving DecidableEq

/-- `product_name` clamp to the 500-character DB column
(`if product_name and len(product_name) > 500`). -/
def clampName (s : String) : String :=
  if s.length > 500 then s.take 500 else s

/-- One iteration of the loop body of `_normalize_deals` on a dict `d`
at enumerate index `idx` (0-based): resolve `store_name` from the
`store_name`/`store` keys and the adapter default, resolve
`product_name` from `product_name`, else `description`/`title`/`name`,
else the placeholder `"<prefix> #<idx+1>"`, clamp to 500 chars, and
write both keys back onto the dict. -/
def normOne (defaultStore : Option String) (pref : String) (idx : Nat) (c : Cand) : Cand :=
  let sn := pyOr c.store_name (pyOr c.store defaultStore)
  let desc := pyOr c.description (pyOr c.title (pyOr c.nameF (some "")))
  let pn :=
    if truthy c.product_name then c.product_name.getD ""
    else if truthy desc then desc.getD ""
    else pref ++ " #" ++ toString (idx + 1)
  { c with
    store_name := some (if truthy sn then sn.getD "" else "Unknown Store")
    product_name := some (clampName pn) }

/-- The loop of `_normalize_deals`, carrying the enumerate index:
non-dict entries are skipped (`continue`), dict entries are normalized
and appended. -/
def normAux (defaultStore : Option String) (pref : String) : Nat → List CandVal → List Cand
  | _, [] => []
  | idx, .nondict :: rest => normAux defaultStore pref (idx + 1) rest
  | idx, .dict c :: rest =>
      normOne defaultStore pref idx c :: normAux defaultStore pref (idx + 1) rest

/-- `_normalize_deals(deals, default_store=..., fallback_name_prefix=...)`
from `run_scrapers.py`. -/
def normalize_deals (defaultStore : Option String) (pref : String)
    (deals : List CandVal) : List Cand :=
  normAux defaultStore pref 0 deals

/-- The dict entries of a raw candidate list, in order. -/
def dictsOf (deals : List CandVal) : List Cand :=
  deals.filterMap fun
    | .dict c => some c
    | .nondict => none

/-- Erase the two keys `_normalize_deals` writes, keeping everything else:
used to state that the Normalizer touches nothing but
`store_name`/`product_name`. -/
def frameOf (c : Cand) : Cand :=
  { c with store_name := none, product_name := none }

/-! ### The Upsert Engine — `bulk_add_deals` in `app.py` -/

/-- A JSON value arriving in a date-like field (`valid_from` /
`valid_until`): a text value or an explicit null.  The code only parses
the text case (`isinstance(..., str)`). -/
inductive DateVal where
  | vstr (s : String)
  | vnull
deriving DecidableEq

/-- One JSON object of the bulk payload, as received: each allowed `Deal`
column is either absent (`none`) or present with a possibly-null value;
`extra` carries all unrecognized keys, which step 1 of the endpoint
strips. -/
structure RawRec where
  store_name : Option (Option String)
  product_name : Option (Option String)
  price : Option (Option String)
  original_price : Option (Option String)
  discount : Option (Option String)
  category : Option (Option String)
  description : Option (Option String)
  image_url : Option (Option String)
  deal_url : Option (Option String)
  valid_from : Option DateVal
  valid_until : Option DateVal
  extra : List (String × String)
deriving DecidableEq

/-- `deal_data` after key stripping and date coercion: present keys keep
their (possibly null) value; present date keys hold the coerced
timestamp, `none` meaning null (either an explicit null or a failed
parse). -/
structure DealData where
  store_name : Option (Option String)
  product_name : Option (Option String)
  price : Option (Option String)
  original_price : Option (Option String)
  discount : Option (Option String)
  category : Option (Option String)
  description : Option (Option String)
  image_url : Option (Option String)
  deal_url : Option (Option String)
  valid_from : Option (Option Int)
  valid_until : Option (Option Int)
deriving DecidableEq

/-- A persisted `Deal` row (the columns the endpoint can read or write). -/
structure DealRow where
  store_name : Option String
  product_name : Option String
  price : Option String
  original_price : Option String
  discount : Option String
  category : Option String
  description : Option String
  image_url : Option String
  deal_url : Option String
  valid_from : Option Int
  valid_until : Option Int
  created_at : Int
  updated_at : Int
deriving DecidableEq

/-- Step 2 of the endpoint on one present date value: a string is parsed
(`datetime.fromisoformat`, the `parseDate` parameter), with failures
mapped to null; a non-string (null) is left as is. -/
def coerceDate (parseDate : String → Option Int) : DateVal → Option Int
  | .vstr s => parseDate s
  | .vnull => none

/-- Steps 1–2 of the endpoint: strip unknown keys, coerce present date
strings. -/
def stripCoerce (parseDate : String → Option Int) (r : RawRec) : DealData :=
  { store_name := r.store_name
    product_name := r.product_name
    price := r.price
    original_price := r.original_price
    discount := r.discount
    category := r.category
    description := r.description
    image_url := r.image_url
    deal_url := r.deal_url
    valid_from := r.valid_from.map (coerceDate parseDate)
    valid_until := r.valid_until.map (coerceDate parseDate) }

/-- `deal_data.get(k)`: the value of a present key, `None` for an absent
one — flattening the two layers of `Option`. -/
def getKey (f : Option (Option String)) : Option String :=
  f.join

/-- The filter of the upsert lookup:
`Deal.query.filter_by(store_name=deal_data.get('store_name'),
product_name=deal_data.get('product_name'))`. -/
def rowMatches (dd : DealData) (row : DealRow) : Bool :=
  row.store_name == getKey dd.store_name && row.product_name == getKey dd.product_name

/-- The found-branch of the upsert: `setattr` every present key onto the
existing row, then refresh `updated_at`. -/
def applyUpdate (now : Int) (dd : DealData) (row : DealRow) : DealRow :=
  { store_name := dd.store_name.getD row.store_name
    product_name := dd.product_name.getD row.product_name
    price := dd.price.getD row.price
    original_price := dd.original_price.getD row.original_price
    discount := dd.discount.getD row.discount
    category := dd.category.getD row.category
    description := dd.description.getD row.description
    image_url := dd.image_url.getD row.image_url
    deal_url := dd.deal_url.getD row.deal_url
    valid_from := dd.valid_from.getD row.valid_from
    valid_until := dd.valid_until.getD row.valid_until
    created_at := row.created_at
    updated_at := now }

/-- The not-found branch: `Deal(**deal_data)` — absent keys take the
column defaults (`None` everywhere except `valid_from`, which defaults
to the current time, and the two audit timestamps). -/
def newRow (now : Int) (dd : DealData) : DealRow :=
  { store_name := getKey dd.store_name
    product_name := getKey dd.product_name
    price := getKey dd.price
    original_price := getKey dd.original_price
    discount := getKey dd.discount
    category := getKey dd.category
    description := getKey dd.description
    image_url := getKey dd.image_url
    deal_url := getKey dd.deal_url
    valid_from := (dd.valid_from.getD (some now))
    valid_until := (dd.valid_until.getD none)
    created_at := now
    updated_at := now }

/-- Step 3 of the endpoint: update the first row matching the
`(store_name, product_name)` key in place, or add a new row. -/
def upsertRows (now : Int) (dd : DealData) : List DealRow → List DealRow
  | [] => [newRow now dd]
  | row :: rs =>
      if rowMatches dd row then applyUpdate now dd row :: rs
      else row :: upsertRows now dd rs

/-- One element of the JSON array: a JSON object, or any non-object value
(whose `.items()` call raises inside the per-record `try`). -/
inductive Item where
  | obj (r : RawRec)
  | nonobj
deriving DecidableEq

/-- The mutable state of the loop over the batch: the session's working
view of the `deals` table and the `added` counter. -/
structure BulkState where
  rows : List DealRow
  added : Nat
deriving DecidableEq

/-- One iteration of the loop: a non-object raises, is caught, and
`db.session.rollback()` resets the session to the last committed state
(`init`, since the endpoint commits only once, at the end); an object is
stripped, coerced and upserted, and `added` is incremented. -/
def bulkStep (parseDate : String → Option Int) (now : Int) (init : List DealRow)
    (st : BulkState) : Item → BulkState
  | .nonobj => { rows := init, added := st.added }
  | .obj r => { rows := upsertRows now (stripCoerce parseDate r) st.rows
                added := st.added + 1 }

/-- The whole loop of `bulk_add_deals` over the batch, starting from the
committed table `init`. -/
def bulkLoop (parseDate : String → Option Int) (now : Int) (init : List DealRow)
    (items : List Item) : BulkState :=
  items.foldl (bulkStep parseDate now init) { rows := init, added := 0 }

/-- The endpoint's HTTP response: status code plus the JSON body fields. -/
structure Resp where
  status : Nat
  success : Bool
  deals_processed : Nat
  deals_added : Nat
deriving DecidableEq

/-- The request body of the bulk endpoint: a JSON array, or anything else
(rejected by the `isinstance(data, list)` guard). -/
inductive Body where
  | arr (items : List Item)
  | notArr

/-- `bulk_add_deals` from `app.py`: returns the committed table and the
response.  A non-array body yields a 400 error and leaves the table as
it was; an array is processed by the loop and committed as a whole. -/
def bulk_add_deals (parseDate : String → Option Int) (now : Int)
    (body : Body) (init : List DealRow) : List DealRow × Resp :=
  match body with
  | .notArr => (init, { status := 400, success := false, deals_processed := 0, deals_added := 0 })
  | .arr items =>
      let st := bulkLoop parseDate now init items
      (st.rows,
       { status := 200, success := true, deals_processed := items.length,
         deals_added := st.added })

/-- Every key present in `dd` has been applied to `row` (dates through
coercion). -/
def agrees (dd : DealData) (row : DealRow) : Prop :=
  (∀ v, dd.store_name = some v → row.store_name = v) ∧
  (∀ v, dd.product_name = some v → row.product_name = v) ∧
  (∀ v, dd.price = some v → row.price = v) ∧
  (∀ v, dd.original_price = some v → row.original_price = v) ∧
  (∀ v, dd.discount = some v → row.discount = v) ∧
  (∀ v, dd.category = some v → row.category = v) ∧
  (∀ v, dd.description = some v → row.description = v) ∧
  (∀ v, dd.image_url = some v → row.image_url = v) ∧
  (∀ v, dd.deal_url = some v → row.deal_url = v) ∧
  (∀ v, dd.valid_from = some v → row.valid_from = v) ∧
  (∀ v, dd.valid_until = some v → row.valid_until = v)

/-- Every key absent from `dd` keeps its previous value in `row'`
(`created_at` is never written by the update branch). -/
def absentPreserved (dd : DealData) (row row' : DealRow) : Prop :=
  (dd.store_name = none → row'.store_name = row.store_name) ∧
  (dd.product_name = none → row'.product_name = row.product_name) ∧
  (dd.price = none → row'.price = row.price) ∧
  (dd.original_price = none → row'.original_price = row.original_price) ∧
  (dd.discount = none → row'.discount = row.discount) ∧
  (dd.category = none → row'.category = row.category) ∧
  (dd.description = none → row'.description = row.description) ∧
  (dd.image_url = none → row'.image_url = row.image_url) ∧
  (dd.deal_url = none → row'.deal_url = row.deal_url) ∧
  (dd.valid_from = none → row'.valid_from = row.valid_from) ∧
  (dd.valid_until = none → row'.valid_until = row.valid_until) ∧
  row'.created_at = row.created_at

/-- Submitting the singleton batch `[r]` to the bulk endpoint `n` times in
a row (each run committing before the next). -/
def ingestN (parseDate : String → Option Int) (now : Int) (r : RawRec)
    (init : List DealRow) : Nat → List DealRow
  | 0 => init
  | n + 1 =>
      (bulk_add_deals parseDate now (.arr [.obj r]) (ingestN parseDate now r init n)).1

/-! ### The active-deal filter — `get_deals` line 130 and `get_stats` -/

/-- The predicate of
`query.filter((Deal.valid_until.is_(None)) | (Deal.valid_until > datetime.utcnow()))`:
no expiry, or an expiry strictly after the query time. -/
def isActive (t : Int) (row : DealRow) : Bool :=
  match row.valid_until with
  | none => true
  | some u => t < u

/-- The active filter stage of `get_deals` (line 130 of `app.py`). -/
def get_deals_active_filter (t : Int) (q : List DealRow) : List DealRow :=
  q.filter (isActive t)

/-- `get_stats` (lines 159–162 of `app.py`): the total row count and the
active row count. -/
def get_stats (t : Int) (rows : List DealRow) : Nat × Nat :=
  (rows.length, (rows.filter (isActive t)).length)

/-! ### The Orchestrator — `run_all_scrapers` in `run_scrapers.py` -/

/-- `run_all_scrapers` from `run_scrapers.py`, with the per-adapter
normalized outputs and the transport (`upload_deals`) as parameters: the
adapter results are concatenated; an empty batch returns 1
(`"No deals found"`); otherwise the batch is uploaded, returning 0 on
success and 1 on failure. -/
def run_all_scrapers (adapterResults : List (List Cand))
    (uploadOk : List Cand → Bool) : Nat :=
  let all_deals := adapterResults.foldl (fun acc l => acc ++ l) []
  if all_deals.isEmpty then 1
  else if uploadOk all_deals then 0
  else 1

/-- The combined batch `all_deals` the Orchestrator accumulates. -/
def concatAll (ls : List (List Cand)) : List Cand :=
  ls.foldl (fun acc l => acc ++ l) []

/-- Number of JSON objects in a batch (the records whose processing does
not raise). -/
def objCount : List Item → Nat
  | [] => 0
  | .obj _ :: rest => objCount rest + 1
  | .nonobj :: rest => objCount rest

/-! ### Concrete sample data used to evaluate the definitions -/

/-- A dict candidate with no recognized field at all. -/
def emptyCand : Cand :=
  { store_name := none, store := none, product_name := none,
    description := none, title := none, nameF := none, rest := [] }

/-- A well-formed candidate record. -/
def sampleCand : Cand :=
  { store_name := some "Walmart", store := none, product_name := some "Eggs",
    description := none, title := none, nameF := none, rest := [] }

/-- A trivially failing date parser (every string is unparseable). -/
def pd0 : String → Option Int := fun _ => none

/-- A canonical incoming record with key `("A", "PA")`. -/
def recA : RawRec :=
  { store_name := some (some "A"), product_name := some (some "PA"),
    price := some (some "1.00"), original_price := none, discount := none,
    category := none, description := none, image_url := none, deal_url := none,
    valid_from := none, valid_until := none, extra := [] }

/-- A canonical incoming record with key `("B", "PB")`. -/
def recB : RawRec :=
  { store_name := some (some "B"), product_name := some (some "PB"),
    price := some (some "2.00"), original_price := none, discount := none,
    category := none, description := none, image_url := none, deal_url := none,
    valid_from := none, valid_until := none, extra := [] }

/-- An incoming partial record: only `store_name`, `product_name`, `price`. -/
def recPrice : RawRec :=
  { store_name := some (some "Walmart"), product_name := some (some "Eggs"),
    price := some (some "2.99"), original_price := none, discount := none,
    category := none, description := none, image_url := none, deal_url := none,
    valid_from := none, valid_until := none, extra := [] }

/-- A stored row with `category` set, matching `recPrice`'s key. -/
def rowDairy : DealRow :=
  { store_name := some "Walmart", product_name := some "Eggs",
    price := some "3.49", original_price := none, discount := none,
    category := some "dairy", description := none, image_url := none,
    deal_url := none, valid_from := none, valid_until := none,
    created_at := 5, updated_at := 5 }

/-! ## Helper lemmas -/

theorem frameOf_normOne (defaultStore : Option String) (pref : String) (idx : Nat)
    (c : Cand) : frameOf (normOne defaultStore pref idx c) = frameOf c := rfl

theorem normAux_frame (defaultStore : Option String) (pref : String) :
    ∀ (idx : Nat) (cands : List CandVal),
      (normAux defaultStore pref idx cands).map frameOf = (dictsOf cands).map frameOf := by
  intro idx cands
  induction cands generalizing idx with
  | nil => rfl
  | cons hd tl ih =>
      cases hd with
      | nondict => simpa [normAux, dictsOf] using ih (idx + 1)
      | dict c =>
          simp [normAux, dictsOf, frameOf_normOne]
          simpa [dictsOf] using ih (idx + 1)

theorem normAux_length (defaultStore : Option String) (pref : String) (idx : Nat)
    (cands : List CandVal) :
    (normAux defaultStore pref idx cands).length = (dictsOf cands).length := by
  have h := congrArg List.length (normAux_frame defaultStore pref idx cands)
  simpa using h

theorem truthy_getD_ne_empty (a : Option String) (h : truthy a = true) :
    a.getD "" ≠ "" := by
  match a with
  | none => simp [truthy] at h
  | some s =>
      simp only [Option.getD]
      simp only [truthy, Bool.not_eq_true'] at h
      intro he
      rw [he] at h
      exact absurd h (by decide)

theorem placeholder_ne_empty (pref : String) (n : Nat) :
    pref ++ " #" ++ toString n ≠ "" := by
  intro he
  have h3 := congrArg String.data he
  simp at h3

theorem run_all_scrapers_eq (adapters : List (List Cand)) (u : List Cand → Bool) :
    run_all_scrapers adapters u =
      if concatAll adapters = [] then 1
      else if u (concatAll adapters) = true then 0
      else 1 := by
  simp only [run_all_scrapers, concatAll]
  by_cases h : List.foldl (fun acc l => acc ++ l) [] adapters = []
  · simp [h]
  · simp [h, List.isEmpty_iff]

theorem clampName_ne_empty (s : String) (h : s ≠ "") : clampName s ≠ "" := by
  unfold clampName
  split
  · intro he
    apply h
    have h2 : s.data.take 500 = [] := by
      have h3 := congrArg String.data he
      simpa using h3
    rcases List.take_eq_nil_iff.mp h2 with h5 | hnil
    · cases h5
    · cases s
      simp_all
  · exact h

theorem agrees_applyUpdate (now : Int) (dd : DealData) (row : DealRow) :
    agrees dd (applyUpdate now dd row) := by
  refine ⟨?_, ?_, ?_, ?_, ?_, ?_, ?_, ?_, ?_, ?_, ?_⟩ <;>
    intro v hv <;> simp [applyUpdate, hv]

theorem absentPreserved_applyUpdate (now : Int) (dd : DealData) (row : DealRow) :
    absentPreserved dd row (applyUpdate now dd row) := by
  refine ⟨?_, ?_, ?_, ?_, ?_, ?_, ?_, ?_, ?_, ?_, ?_, rfl⟩ <;>
    intro hv <;> simp [applyUpdate, hv]

theorem upsertRows_found (now : Int) (dd : DealData) (row : DealRow) :
    ∀ (pre post : List DealRow), (∀ q ∈ pre, rowMatches dd q = false) →
      rowMatches dd row = true →
      upsertRows now dd (pre ++ row :: post) = pre ++ applyUpdate now dd row :: post := by
  intro pre
  induction pre with
  | nil =>
      intro post _ hrow
      simp [upsertRows, hrow]
  | cons q qs ih =>
      intro post hpre hrow
      have hq : rowMatches dd q = false := hpre q (by simp)
      simp only [List.cons_append, upsertRows, hq]
      simp only [Bool.false_eq_true, if_false, List.cons.injEq, true_and]
      exact ih post (fun x hx => hpre x (by simp [hx])) hrow

theorem bulkFold_added (parseDate : String → Option Int) (now : Int)
    (init : List DealRow) :
    ∀ (items : List Item) (st : BulkState),
      (items.foldl (bulkStep parseDate now init) st).added = st.added + objCount items := by
  intro items
  induction items with
  | nil =>
      intro st
      simp [objCount]
  | cons it rest ih =>
      intro st
      cases it with
      | nonobj =>
          rw [List.foldl_cons, ih]
          simp [bulkStep, objCount]
      | obj r =>
          rw [List.foldl_cons, ih]
          simp [bulkStep, objCount]
          omega

theorem bulkFold_rows (parseDate : String → Option Int) (now : Int)
    (init : List DealRow) :
    ∀ (items : List Item) (w : List DealRow) (a b : Nat),
      (items.foldl (bulkStep parseDate now init) { rows := w, added := a }).rows =
      (items.foldl (bulkStep parseDate now init) { rows := w, added := b }).rows := by
  intro items
  induction items with
  | nil =>
      intro w a b
      rfl
  | cons it rest ih =>
      intro w a b
      cases it with
      | nonobj => exact ih init a b
      | obj r => exact ih _ _ _

theorem ingestN_succ (parseDate : String → Option Int) (now : Int) (r : RawRec)
    (init : List DealRow) (n : Nat) :
    ingestN parseDate now r init (n + 1) =
      upsertRows now (stripCoerce parseDate r) (ingestN parseDate now r init n) := rfl

/-! ## Claim theorems -/

/-- C9: Normalizer frame property — `_normalize_deals` changes at most the
`store_name` and `product_name` keys of each dict candidate; every other
key/value pair is preserved unchanged in the emitted record, and the
emitted records appear in the same relative order as their candidates
(non-dict entries being the only ones skipped). -/
theorem normalizer_frame (defaultStore : Option String) (pref : String)
    (cands : List CandVal) :
    (normalize_deals defaultStore pref cands).map frameOf = (dictsOf cands).map frameOf :=
  normAux_frame defaultStore pref 0 cands

/-- C5 counterexample: a dict candidate with no `store_name` source and no
`product_name` source at all is NOT dropped by `_normalize_deals` — it is
emitted into the batch, with `store_name` defaulted to `"Unknown Store"`
and `product_name` set to the generated placeholder. -/
theorem identityless_candidate_is_emitted :
    normalize_deals none "Deal" [.dict emptyCand] =
      [{ emptyCand with store_name := some "Unknown Store", product_name := some "Deal #1" }] ∧
    (normalize_deals none "Deal" [.dict emptyCand]).length = 1 := by
  constructor
  · decide
  · decide

/-- C5 (amended): a candidate record supplying neither a `store_name`
source nor any `product_name` source is not dropped: the Normalizer
always has a fallback, and emits the record with `store_name` taken from
the adapter default (or `"Unknown Store"`) and `product_name` set to the
generated placeholder.  No dict candidate is ever dropped — the emitted
batch has exactly one record per dict candidate — and the only dropped
entries are non-dict values, dropped silently without any diagnostic
count. -/
theorem identityless_fallback (defaultStore : Option String) (pref : String)
    (cands : List CandVal) (idx : Nat) (c : Cand)
    (h1 : truthy c.store_name = false) (h2 : truthy c.store = false)
    (h3 : truthy c.product_name = false) (h4 : truthy c.description = false)
    (h5 : truthy c.title = false) (h6 : truthy c.nameF = false) :
    (normalize_deals defaultStore pref cands).length = (dictsOf cands).length ∧
    normOne defaultStore pref idx c =
      { c with
        store_name := some (if truthy defaultStore then defaultStore.getD "" else "Unknown Store")
        product_name := some (clampName (pref ++ " #" ++ toString (idx + 1))) } := by
  constructor
  · exact normAux_length defaultStore pref 0 cands
  · have h0 : truthy (some "") = false := by decide
    have hsn : pyOr c.store_name (pyOr c.store defaultStore) = defaultStore := by
      simp [pyOr, h1, h2]
    have hdesc : pyOr c.description (pyOr c.title (pyOr c.nameF (some ""))) = some "" := by
      simp [pyOr, h4, h5, h6]
    simp [normOne, h3, hsn, hdesc, h0]

/-- C5 (amended) witness: the empty dict candidate at index 0 with adapter
default `"Dollar General"` is emitted with that store and placeholder
name `"Dollar General deal #1"`. -/
theorem identityless_fallback_witness :
    truthy emptyCand.store_name = false ∧
    normOne (some "Dollar General") "Dollar General deal" 0 emptyCand =
      { emptyCand with
        store_name := some "Dollar General"
        product_name := some "Dollar General deal #1" } := by
  refine ⟨by decide, ?_⟩
  have h := (identityless_fallback (some "Dollar General") "Dollar General deal"
    [] 0 emptyCand (by decide) (by decide) (by decide) (by decide) (by decide) (by decide)).2
  rw [h]
  decide

/-- C6: fallback naming — for a candidate whose `product_name` key is
missing (or falsy), the Normalizer resolves `product_name` by falling
back, in order, to `description`, then the free-text `title`/`name`
keys, then the generated placeholder `"<prefix> #<idx+1>"` (1-based
position in the batch), the result being clamped to 500 characters and
always non-empty. -/
theorem fallback_naming (defaultStore : Option String) (pref : String) (idx : Nat)
    (c : Cand) (h : truthy c.product_name = false) :
    (normOne defaultStore pref idx c).product_name =
      some (clampName
        (if truthy c.description then c.description.getD ""
         else if truthy c.title then c.title.getD ""
         else if truthy c.nameF then c.nameF.getD ""
         else pref ++ " #" ++ toString (idx + 1))) ∧
    ∀ s, (normOne defaultStore pref idx c).product_name = some s → s ≠ "" := by
  have h0 : truthy (some "") = false := by decide
  have hchain : (normOne defaultStore pref idx c).product_name =
      some (clampName
        (if truthy c.description then c.description.getD ""
         else if truthy c.title then c.title.getD ""
         else if truthy c.nameF then c.nameF.getD ""
         else pref ++ " #" ++ toString (idx + 1))) := by
    cases hd : truthy c.description <;> cases ht : truthy c.title <;>
      cases hn : truthy c.nameF <;>
      simp [normOne, pyOr, h, hd, ht, hn, h0]
  refine ⟨hchain, ?_⟩
  intro s hs
  rw [hchain] at hs
  injection hs with hs2
  subst hs2
  apply clampName_ne_empty
  by_cases hd : truthy c.description = true
  · rw [if_pos hd]
    exact truthy_getD_ne_empty _ hd
  · rw [if_neg hd]
    by_cases ht : truthy c.title = true
    · rw [if_pos ht]
      exact truthy_getD_ne_empty _ ht
    · rw [if_neg ht]
      by_cases hn : truthy c.nameF = true
      · rw [if_pos hn]
        exact truthy_getD_ne_empty _ hn
      · rw [if_neg hn]
        exact placeholder_ne_empty pref (idx + 1)

/-- C6 witness: a candidate with none of the name-like fields at 0-based
index 2 — position 3 in the batch — normalizes to product_name
`"Deal #3"`, and a candidate whose only text is a description keeps it. -/
theorem fallback_naming_witness :
    truthy emptyCand.product_name = false ∧
    (normOne none "Deal" 2 emptyCand).product_name = some "Deal #3" ∧
    (normOne none "Deal" 0
        { emptyCand with description := some "Buy one get one free" }).product_name =
      some "Buy one get one free" := by
  refine ⟨by decide, ?_, ?_⟩
  · have h := (fallback_naming none "Deal" 2 emptyCand (by decide)).1
    rw [h]; decide
  · have h := (fallback_naming none "Deal" 0
      { emptyCand with description := some "Buy one get one free" } (by decide)).1
    rw [h]; decide

/-- C8: active-deal filter — a stored Deal is included in the active
results at query time `t` iff its `valid_until` is absent or strictly
greater than `t`; the active count of `get_stats` is governed by the
same predicate. -/
theorem active_filter_iff (t : Int) (rows : List DealRow) (d : DealRow) :
    (d ∈ get_deals_active_filter t rows ↔
      d ∈ rows ∧ (d.valid_until = none ∨ ∃ u, d.valid_until = some u ∧ t < u)) ∧
    (get_stats t rows).2 = (get_deals_active_filter t rows).length := by
  constructor
  · rw [get_deals_active_filter, List.mem_filter]
    constructor
    · rintro ⟨hm, ha⟩
      refine ⟨hm, ?_⟩
      cases hvu : d.valid_until with
      | none => exact Or.inl rfl
      | some u =>
          right
          refine ⟨u, rfl, ?_⟩
          rw [isActive, hvu] at ha
          exact of_decide_eq_true ha
    · rintro ⟨hm, hv⟩
      refine ⟨hm, ?_⟩
      rcases hv with hv | ⟨u, hu, hlt⟩
      · rw [isActive, hv]
      · rw [isActive, hu]
        exact decide_eq_true hlt
  · rfl

/-- C10: bulk endpoint input guard — a request whose JSON body is not a
list is answered with HTTP 400 and an error body, and the stored `deals`
table is left unchanged. -/
theorem bulk_nonlist_guard (parseDate : String → Option Int) (now : Int)
    (init : List DealRow) :
    (bulk_add_deals parseDate now .notArr init).1 = init ∧
    (bulk_add_deals parseDate now .notArr init).2.status = 400 ∧
    (bulk_add_deals parseDate now .notArr init).2.success = false ∧
    (bulk_add_deals parseDate now .notArr init).2.deals_added = 0 :=
  ⟨rfl, rfl, rfl, rfl⟩

/-- C3 counterexample: the soft failure (no adapter produced any record)
and the hard failure (submission to storage failed) are NOT
distinguishable — `run_all_scrapers` returns the same exit code 1 for
both, so there are only two distinguishable outcomes, not three. -/
theorem run_all_statuses_collide :
    run_all_scrapers [[]] (fun _ => false) = 1 ∧
    run_all_scrapers [[sampleCand]] (fun _ => false) = 1 ∧
    run_all_scrapers [[]] (fun _ => false) =
      run_all_scrapers [[sampleCand]] (fun _ => false) := by
  refine ⟨rfl, rfl, rfl⟩

/-- C3 (amended): `run_all_scrapers` returns 0 when the combined batch is
non-empty and submission succeeds, and 1 both when no adapter produced
any record and when submission to storage fails — the empty-batch soft
failure (reported early, without attempting an upload) and the
submission hard failure share the same status code 1; only success is
distinguishable by the return value. -/
theorem run_all_status (adapters : List (List Cand)) (u : List Cand → Bool) :
    (concatAll adapters = [] → run_all_scrapers adapters u = 1) ∧
    (concatAll adapters ≠ [] → u (concatAll adapters) = true →
      run_all_scrapers adapters u = 0) ∧
    (concatAll adapters ≠ [] → u (concatAll adapters) = false →
      run_all_scrapers adapters u = 1) := by
  rw [run_all_scrapers_eq]
  refine ⟨fun h => ?_, fun hne hu => ?_, fun hne hu => ?_⟩
  · simp [h]
  · simp [hne, hu]
  · simp [hne, hu]

/-- C3 (amended) witness: on a one-adapter run with one record and a
transport that succeeds, the status is 0. -/
theorem run_all_status_witness :
    concatAll [[sampleCand]] ≠ [] ∧
    run_all_scrapers [[sampleCand]] (fun _ => true) = 0 := by
  refine ⟨by decide, ?_⟩
  exact (run_all_status [[sampleCand]] (fun _ => true)).2.1 (by decide) rfl

/-- C2: partial-update preservation — when an incoming record matches the
first stored row with its `(store_name, product_name)` key, the upsert
rewrites exactly that row: every field present in the record is
overwritten, `updated_at` is refreshed, and every field absent from the
record (and `created_at`) keeps its previous value; all other rows are
untouched. -/
theorem partial_update_preserves (parseDate : String → Option Int) (now : Int)
    (r : RawRec) (pre post : List DealRow) (row : DealRow)
    (hpre : ∀ q ∈ pre, rowMatches (stripCoerce parseDate r) q = false)
    (hrow : rowMatches (stripCoerce parseDate r) row = true) :
    upsertRows now (stripCoerce parseDate r) (pre ++ row :: post) =
      pre ++ applyUpdate now (stripCoerce parseDate r) row :: post ∧
    agrees (stripCoerce parseDate r) (applyUpdate now (stripCoerce parseDate r) row) ∧
    absentPreserved (stripCoerce parseDate r) row
      (applyUpdate now (stripCoerce parseDate r) row) ∧
    (applyUpdate now (stripCoerce parseDate r) row).updated_at = now :=
  ⟨upsertRows_found now _ row pre post hpre hrow,
   agrees_applyUpdate now _ row,
   absentPreserved_applyUpdate now _ row,
   rfl⟩

/-- C2 witness: upserting a record carrying only
`{store_name, product_name, price}` onto a row that has `category` set
updates `price` but does not clear `category`. -/
theorem partial_update_witness :
    rowMatches (stripCoerce pd0 recPrice) rowDairy = true ∧
    (applyUpdate 7 (stripCoerce pd0 recPrice) rowDairy).category = some "dairy" ∧
    (applyUpdate 7 (stripCoerce pd0 recPrice) rowDairy).price = some "2.99" ∧
    upsertRows 7 (stripCoerce pd0 recPrice) [rowDairy] =
      [applyUpdate 7 (stripCoerce pd0 recPrice) rowDairy] := by
  have h := partial_update_preserves pd0 7 recPrice [] [] rowDairy
    (by intro q hq; cases hq) (by decide)
  refine ⟨by decide, ?_, ?_, ?_⟩
  · exact (h.2.2.1).2.2.2.2.2.1 rfl
  · exact (h.2.1).2.2.1 (some "2.99") rfl
  · exact h.1

/-- C4 counterexample: per-item isolation fails for the records BEFORE a
malformed one — in the batch `[recA, non-object, recB]` the per-record
rollback discards `recA`'s pending insert, so no row for `recA`'s key is
stored (while the same batch without the malformed record stores it),
even though `recA` is counted in `deals_added`. -/
theorem malformed_record_discards_prior :
    ((bulk_add_deals pd0 0 (.arr [.obj recA, .nonobj, .obj recB]) []).1.filter
        (rowMatches (stripCoerce pd0 recA))).length = 0 ∧
    (bulk_add_deals pd0 0 (.arr [.obj recA, .nonobj, .obj recB]) []).2.deals_added = 2 ∧
    ((bulk_add_deals pd0 0 (.arr [.obj recA, .obj recB]) []).1.filter
        (rowMatches (stripCoerce pd0 recA))).length = 1 := by
  refine ⟨by decide, by decide, by decide⟩

/-- C4 (amended): a failure while applying a single record is caught, the
record is skipped and not counted in `deals_added`, and all records
AFTER the failure are still processed and committed — but the
`rollback()` issued on the failure resets the uncommitted session, so
the pending effects of the records BEFORE the failure are discarded (the
final table is exactly what submitting only the suffix would produce),
even though those records remain counted as applied. -/
theorem per_item_isolation_suffix (parseDate : String → Option Int) (now : Int)
    (init : List DealRow) (pre post : List Item) :
    (bulkLoop parseDate now init (pre ++ .nonobj :: post)).rows =
      (bulkLoop parseDate now init post).rows ∧
    (bulkLoop parseDate now init (pre ++ .nonobj :: post)).added =
      objCount pre + objCount post := by
  constructor
  · show (List.foldl (bulkStep parseDate now init) { rows := init, added := 0 }
        (pre ++ .nonobj :: post)).rows = _
    rw [List.foldl_append, List.foldl_cons]
    exact bulkFold_rows parseDate now init post init _ 0
  · show (List.foldl (bulkStep parseDate now init) { rows := init, added := 0 }
        (pre ++ .nonobj :: post)).added = _
    rw [List.foldl_append, List.foldl_cons, bulkFold_added]
    have h1 := bulkFold_added parseDate now init pre { rows := init, added := 0 }
    simp only [bulkStep] at *
    omega

end Budgeteer
